import Mathlib

/-!
Shallow embedding of `src/DateIntervalCycler/DateIntervalCycler.py` (class
`DateIntervalCycler`), the core interval cycling engine of the repository.

Python `datetime.datetime` values are modelled at day granularity as `Date`
records of integers compared lexicographically, which matches how the source
compares datetimes (it only ever builds midnight timestamps from
(year, month, day)).  Python `int` is modelled as `Int`.  A method that can
raise is modelled with `Option`/`Except`; the internal `RuntimeError` of
`_to_datetime` (index out of range) is modelled by returning `none`.
Bounded internal recursion (`_to_datetime`, `_get_end_of_feb_check_date`) is
modelled with an explicit fuel argument whose start value strictly exceeds
the recursion depth reachable from any state with `p` in range (the source
recursions move `p` to a non-recursive case in at most four steps).
-/

deriving instance DecidableEq for Except

namespace DICModel

/-- Calendar date at day granularity, mirroring the (year, month, day)
content of the `datetime.datetime` values built by the source. -/
structure Date where
  y : Int
  m : Int
  d : Int
deriving DecidableEq, Repr

/-- Lexicographic strict order on dates: exactly Python's `datetime <`. -/
def Date.ltb (a b : Date) : Bool :=
  a.y < b.y || (a.y == b.y && (a.m < b.m || (a.m == b.m && a.d < b.d)))

/-- Lexicographic order on dates: exactly Python's `datetime <=`. -/
def Date.leb (a b : Date) : Bool :=
  a == b || Date.ltb a b

/-- Sentinel `NUL = dt.datetime(1, 1, 1)` from the source. -/
def NUL : Date := ⟨1, 1, 1⟩

/-- Source `_is_leap` / `DateIntervalCycler.is_leap`. -/
def is_leap (year : Int) : Bool :=
  year % 4 == 0 && (year % 100 != 0 || year % 400 == 0)

/-- Source `_month_days_29` (leap-year day counts; month is the index,
entry 0 unused).  Lookup is only performed for months in [1, 12]. -/
def month_days_29 (m : Int) : Int :=
  [31, 29, 31, 30, 31, 30, 31, 31, 30, 31, 30, 31].getD (m - 1).toNat 0

/-- Source `_month_days_28` (non-leap-year day counts). -/
def month_days_28 (m : Int) : Int :=
  [31, 28, 31, 30, 31, 30, 31, 31, 30, 31, 30, 31].getD (m - 1).toNat 0

/-- Day count of a month, honouring leap years: `month_days` of the source. -/
def month_days (m : Int) (leap : Bool) : Int :=
  if leap then month_days_29 m else month_days_28 m

/-- The date one day earlier; model of Python `date + timedelta(days=-1)`
for valid calendar dates (used by `index_from_date` to nudge a date that
equals `last_interval_end`). -/
def prev_day (a : Date) : Date :=
  if a.d > 1 then ⟨a.y, a.m, a.d - 1⟩
  else if a.m > 1 then ⟨a.y, a.m - 1, month_days (a.m - 1) (is_leap a.y)⟩
  else ⟨a.y - 1, 12, 31⟩

/-- Lexicographic strict order on (month, day) cycle tuples: Python tuple `<`. -/
def cyc_ltb (a b : Int × Int) : Bool :=
  a.1 < b.1 || (a.1 == b.1 && a.2 < b.2)

/-- Ordered duplicate-dropping insertion, building `sorted(set(...))`. -/
def insert_cycle (c : Int × Int) : List (Int × Int) → List (Int × Int)
  | [] => [c]
  | x :: xs =>
    if cyc_ltb c x then c :: x :: xs
    else if c == x then x :: xs
    else x :: insert_cycle c xs

/-- Source `_intervals_to_array`: drop duplicates and sort ascending. -/
def intervals_to_array (cycles : List (Int × Int)) : List (Int × Int) :=
  cycles.foldr insert_cycle []

/-- Source `DateIntervalCycler.MAX_INTERVAL`. -/
def MAX_INTERVAL : Int := 2000000000

/-- The state of a `DateIntervalCycler` object: one field per Python
attribute (leading underscores dropped). -/
structure DIC where
  cycles : List (Int × Int)
  dim : Int
  len : Int
  y : Int
  p : Int
  p0 : Int
  ind : Int
  end_of_feb_check : Bool
  end_of_feb_check_has_28 : Bool
  p_feb_29 : Int
  at_first_interval : Int
  at_last_interval : Int
  started_before_first_interval : Bool
  p0_date : Date
  first_start_date : Date
  last_end_date : Option Date
  has_last_end_date : Bool
deriving DecidableEq, Repr

instance : Inhabited DIC :=
  ⟨⟨[], 0, 0, 0, 0, 0, 0, false, false, 0, 0, 0, false, NUL, NUL, none, false⟩⟩

/-- Element access `self.cycles[p]`.  The source only reaches this with
`0 <= p < len(cycles)`; out-of-range access (Python `IndexError`) is `none`. -/
def cyc (s : DIC) (p : Int) : Option (Int × Int) :=
  if p < 0 then none else s.cycles[p.toNat]?

/-- Source `_to_datetime(p, y, feb29_move_next_fix)` with explicit fuel.
Returns `none` for the `RuntimeError` raised when `p > self._dim` (and on
fuel exhaustion, which no in-range call can reach; the source recursion
reaches a non-recursive case in at most four nested calls). -/
def to_datetime_fuel (s : DIC) : Nat → Int → Int → Bool → Option Date
  | 0, _, _, _ => none
  | fuel + 1, p, yy, fix =>
    if p > s.dim then none
    else if p != s.p_feb_29 || is_leap yy then
      if p < s.dim then (cyc s p).map (fun c => ⟨yy, c.1, c.2⟩)
      else to_datetime_fuel s fuel 0 (yy + 1) fix
    else if !s.end_of_feb_check_has_28 then some ⟨yy, 2, 28⟩
    else if fix then to_datetime_fuel s fuel (p + 1) yy fix
    else to_datetime_fuel s fuel (p - 1) yy fix

/-- Source `_to_datetime` with the `y=None` default supplied through an
`Option` argument and default fix direction handled by the caller. -/
def to_datetime (s : DIC) (p : Int) (yOpt : Option Int) (fix : Bool) : Option Date :=
  to_datetime_fuel s 6 p (yOpt.getD s.y) fix

/-- Source `_get_end_of_feb_check_date(p)` with explicit fuel (recursion
depth is at most two); `none` models the `RuntimeError` for `p` out of
[0, dim]. -/
def get_end_of_feb_check_date_fuel (s : DIC) : Nat → Int → Option Date
  | 0, _ => none
  | fuel + 1, p =>
    if p < 0 || p > s.dim then none
    else
      let yy := if p == s.dim then s.y + 1 else s.y
      let pp := if p == s.dim then 0 else p
      match cyc s pp with
      | none => none
      | some md =>
        if s.end_of_feb_check && pp == s.p_feb_29 && !is_leap yy then
          if s.end_of_feb_check_has_28 then
            get_end_of_feb_check_date_fuel s fuel (pp + 1)
          else some ⟨yy, md.1, 28⟩
        else some ⟨yy, md.1, md.2⟩

/-- Source `_get_end_of_feb_check_date(p)`. -/
def get_end_of_feb_check_date (s : DIC) (p : Int) : Option Date :=
  get_end_of_feb_check_date_fuel s 4 p

/-- Property `interval_start`. -/
def interval_start (s : DIC) : Option Date :=
  if s.at_first_interval != 0 then some s.first_start_date
  else if s.end_of_feb_check then get_end_of_feb_check_date s s.p
  else to_datetime s s.p none true

/-- Property `interval_end`.  When `_at_last_interval` is set the source
returns `self._last_end_date` directly (which would be `None` only in
states the source cannot reach). -/
def interval_end (s : DIC) : Option Date :=
  if s.at_last_interval != 0 then s.last_end_date
  else if s.at_first_interval != 0 then
    if s.end_of_feb_check then get_end_of_feb_check_date s s.p
    else to_datetime s s.p none true
  else if s.end_of_feb_check then get_end_of_feb_check_date s (s.p + 1)
  else to_datetime s (s.p + 1) none true

/-- Source `_p_next`: advance the cycle pointer, wrapping into the next year. -/
def p_next (s : DIC) : DIC :=
  let p := s.p + 1
  if p == s.dim then { s with p := 0, y := s.y + 1 } else { s with p := p }

/-- Source `_p_back`: retreat the cycle pointer, wrapping into the prior year. -/
def p_back (s : DIC) : DIC :=
  let p := s.p - 1
  if p == -1 then { s with p := s.dim - 1, y := s.y - 1 } else { s with p := p }

/-- The `for i, (vm, vd) in enumerate(self.cycles)` search inside
`reset(set_p0=True)`: the first index whose (Feb-29 adjusted) date lies
strictly after `first_start_date`, else `len(self.cycles)`. -/
def reset_p0_go (s : DIC) (i : Int) : List (Int × Int) → Int
  | [] => (s.cycles.length : Int)
  | (vm, vd) :: rest =>
    if s.end_of_feb_check && i == s.p_feb_29 && !is_leap s.y then
      if s.end_of_feb_check_has_28 then reset_p0_go s (i + 1) rest
      else if Date.ltb s.first_start_date ⟨s.y, vm, 28⟩ then i
      else reset_p0_go s (i + 1) rest
    else if Date.ltb s.first_start_date ⟨s.y, vm, vd⟩ then i
    else reset_p0_go s (i + 1) rest

/-- Source `reset(start_before_first_interval, set_p0)`.  In the `set_p0`
branch the source computes `_p0_date` with `_to_datetime`, which is defined
whenever `p0 <= dim`; the `NUL` fallback stands for the out-of-range
`RuntimeError` case that a consistent state cannot reach. -/
def reset (s : DIC) (start_before_first_interval : Bool) (set_p0 : Bool) : DIC :=
  let s := { s with y := s.first_start_date.y }
  let s :=
    if set_p0 then
      let np0 := reset_p0_go s 0 s.cycles
      { s with p0 := np0,
               p0_date := (to_datetime s np0 (some s.first_start_date.y) true).getD NUL }
    else s
  let s := { s with p := s.p0, ind := 0 }
  if !(s.at_first_interval != 0 && s.at_last_interval != 0) then
    { s with started_before_first_interval := start_before_first_interval,
             at_first_interval := if start_before_first_interval then -1 else 1,
             at_last_interval := 0 }
  else s

/-- Source `set_first_interval_start`.  The argument is already a day
granularity `Date`, so the `AttributeError` re-raise path for non-date
arguments has no counterpart here. -/
def set_first_interval_start (s : DIC) (date : Date) (start_before_first_interval : Bool) : DIC :=
  let s := { s with first_start_date := date, at_first_interval := 1 }
  let s := reset s start_before_first_interval true
  if s.has_last_end_date &&
      (match s.last_end_date with
       | some e => Date.leb e s.p0_date
       | none => false) then
    { s with started_before_first_interval := false, at_last_interval := 1, len := 1 }
  else s

/-- Source `_start_less_end_check`: `true` when the `ValueError` fires
(note the source only rejects `last < first`, not equality). -/
def start_less_end_violation (s : DIC) : Bool :=
  match s.last_end_date with
  | some e => Date.ltb e s.first_start_date
  | none => false

/-- The counting loop of `index_from_date` (non-Feb-29 path): walk the
cycle tuples and count until `vm < m or (vm <= m and vd < d)` breaks. -/
def count_break_le (vm vd : Int) : List (Int × Int) → Int
  | [] => 0
  | (m, d) :: rest =>
    if vm < m || (vm <= m && vd < d) then 0
    else 1 + count_break_le vm vd rest

/-- The counting loop of `_index_from_date_end_of_feb_check` without the
skip (its break test is written `vm < m or (vm == m and vd < d)`). -/
def count_break_eq (vm vd : Int) : List (Int × Int) → Int
  | [] => 0
  | (m, d) :: rest =>
    if vm < m || (vm == m && vd < d) then 0
    else 1 + count_break_eq vm vd rest

/-- The counting loop of `_index_from_date_end_of_feb_check` that skips the
index of (2, 29) (`if i == self._p_feb_29: continue`). -/
def count_break_skip (s : DIC) (vm vd : Int) (i : Int) : List (Int × Int) → Int
  | [] => 0
  | (m, d) :: rest =>
    if i == s.p_feb_29 then count_break_skip s vm vd (i + 1) rest
    else if vm < m || (vm == m && vd < d) then 0
    else 1 + count_break_skip s vm vd (i + 1) rest

/-- The `for y in range(sy + 1, vy)` accumulation of
`_index_from_date_end_of_feb_check`: per-year interval counts, one less in
a non-leap year.  `fuel` is the exact number of loop iterations. -/
def year_sum (s : DIC) : Nat → Int → Int
  | 0, _ => 0
  | fuel + 1, yy =>
    (if is_leap yy then s.dim else s.dim - 1) + year_sum s fuel (yy + 1)

/-- Source `_index_from_date_end_of_feb_check(date)`. -/
def index_from_date_end_of_feb_check (s : DIC) (date : Date) : Int :=
  let nudge := s.has_last_end_date && s.last_end_date == some date
  let dte := if nudge then prev_day date else date
  let add : Int := if nudge then 1 else 0
  let sy := s.first_start_date.y
  let leap_year := is_leap sy
  if sy == dte.y then
    (if leap_year || s.p_feb_29 < s.p0 then
       count_break_eq dte.m dte.d (s.cycles.drop s.p0.toNat)
     else
       count_break_skip s dte.m dte.d s.p0 (s.cycles.drop s.p0.toNat)) + add
  else
    let ind0 : Int :=
      if leap_year || s.p_feb_29 < s.p0 then s.dim - s.p0 else s.dim - s.p0 - 1
    let ind1 := ind0 + year_sum s (dte.y - (sy + 1)).toNat (sy + 1)
    (if is_leap dte.y then ind1 + count_break_eq dte.m dte.d s.cycles
     else ind1 + count_break_skip s dte.m dte.d 0 s.cycles) + add

/-- Source `index_from_date(date)`.  The `range(p0, dim)` and
`range(dim)` loops are realised on the stored cycle list, which has
exactly `dim` entries for every state the constructor accepts with a
duplicate-free cycle argument. -/
def index_from_date (s : DIC) (date : Date) : Int :=
  if Date.ltb date s.first_start_date then -1
  else if s.has_last_end_date &&
      (match s.last_end_date with
       | some e => Date.ltb e date
       | none => false) then -2
  else if s.at_first_interval != 0 && s.at_last_interval != 0 then 0
  else if Date.ltb date s.p0_date then 0
  else if s.end_of_feb_check_has_28 then index_from_date_end_of_feb_check s date
  else
    let nudge := s.has_last_end_date && s.last_end_date == some date
    let dte := if nudge then prev_day date else date
    let add : Int := if nudge then 1 else 0
    let sy := s.first_start_date.y
    if sy == dte.y then
      count_break_le dte.m dte.d (s.cycles.drop s.p0.toNat) + add
    else
      (dte.y - sy - 1) * s.dim + s.dim - s.p0
        + count_break_le dte.m dte.d s.cycles + add

/-- Source `set_last_interval_end`.  Raising `ValueError` is the `error`
branch; as in `set_first_interval_start` the argument is already a `Date`. -/
def set_last_interval_end (s : DIC) (date : Option Date) : Except String DIC :=
  let s := { s with last_end_date := date, has_last_end_date := date.isSome }
  if start_less_end_violation s then
    .error "DateIntervalCycler requires that the start date be strictly less than the end date."
  else if s.has_last_end_date &&
      (match s.last_end_date with
       | some e => Date.leb e s.p0_date
       | none => false) then
    .ok { s with started_before_first_interval := false, at_first_interval := 1,
                 at_last_interval := 1, len := 1 }
  else
    match date with
    | some e => .ok { s with len := index_from_date s e }
    | none => .ok { s with len := MAX_INTERVAL }

/-- Result of one `next`/`back` call: the returned overshoot count, the
`StopIteration` raise, or the internal `RuntimeError` raise. -/
inductive NextRes where
  | ok (n : Int)
  | stop
  | err
deriving DecidableEq, Repr

/-- The trailing Feb-29 skip of `next` (step once more when the pointer
landed on the (2, 29) entry of a non-leap year and (2, 28) is configured). -/
def next_feb_skip (s : DIC) : DIC × NextRes :=
  if s.end_of_feb_check_has_28 && s.p == s.p_feb_29 && !is_leap s.y then
    (p_next s, .ok 0)
  else (s, .ok 0)

/-- The advance step of `next` once the boundary flags are handled: clear
`_at_first_interval` with its pointer pre-decrement when set, `_p_next()`,
and `_ind += 1`. -/
def next_enter (s : DIC) : DIC :=
  let s1 :=
    if s.at_first_interval != 0 then { s with at_first_interval := 0, p := s.p - 1 }
    else s
  let s2 := p_next s1
  { s2 with ind := s2.ind + 1 }

/-- The tail of `next` on the advanced state: the end-of-series check
(with its Feb-29 back-off) followed by the Feb-29 skip. -/
def next_main (s : DIC) : DIC × NextRes :=
  match s.last_end_date with
  | some e =>
    if s.has_last_end_date && s.y + 1 >= e.y then
      match to_datetime s (s.p + 1) none true with
      | none => (s, .err)
      | some nd =>
        if Date.leb e nd then
          let s1 :=
            if s.end_of_feb_check_has_28 && s.p == s.p_feb_29 && !is_leap s.y then
              p_back s
            else s
          ({ s1 with at_last_interval := 1 }, .ok 0)
        else next_feb_skip s
    else next_feb_skip s
  | none => next_feb_skip s

/-- Source `next(allowStopIteration)`: returns the post-call state (Python
mutates `self` before raising) together with the result. -/
def next (s : DIC) (allowStopIteration : Bool) : DIC × NextRes :=
  if s.at_last_interval != 0 then
    let s := { s with at_last_interval := s.at_last_interval + 1 }
    if allowStopIteration then (s, .stop) else (s, .ok (s.at_last_interval - 1))
  else if s.at_first_interval == -1 then
    ({ s with at_first_interval := 1 }, .ok 0)
  else next_main (next_enter s)

/-- The trailing Feb-29 skip of `back` (mirror direction). -/
def back_feb_skip (s : DIC) : DIC × NextRes :=
  if s.end_of_feb_check_has_28 && s.p == s.p_feb_29 && !is_leap s.y then
    (p_back s, .ok 0)
  else (s, .ok 0)

/-- The retreat step of `back` once the at-first overshoot is handled:
clear `_at_last_interval` when set, `_p_back()`, and `_ind -= 1`. -/
def back_enter (s : DIC) : DIC :=
  let s1 := if s.at_last_interval != 0 then { s with at_last_interval := 0 } else s
  let s2 := p_back s1
  { s2 with ind := s2.ind - 1 }

/-- The tail of `back` on the retreated state: the snap-to-first check
followed by the mirror Feb-29 skip. -/
def back_main (s : DIC) : DIC × NextRes :=
  if s.y <= s.first_start_date.y + 1 then
    match to_datetime s s.p none true with
    | none => (s, .err)
    | some d =>
      if Date.leb d s.first_start_date then (reset s false false, .ok 0)
      else back_feb_skip s
  else back_feb_skip s

/-- Source `back(allowStopIteration)`. -/
def back (s : DIC) (allowStopIteration : Bool) : DIC × NextRes :=
  if s.at_first_interval != 0 then
    let f := if s.at_first_interval == -1 then 1 else s.at_first_interval
    let s := { s with at_first_interval := f + 1 }
    if allowStopIteration then (s, .stop) else (s, .ok (s.at_first_interval - 1))
  else back_main (back_enter s)

/-- Python `list.index(c)` on the stored cycle list (first position of
`c`; only called when `c` is present). -/
def list_index (l : List (Int × Int)) (c : Int × Int) : Nat :=
  match l with
  | [] => 0
  | x :: t => if x = c then 0 else list_index t c + 1

/-- Source `__init__` (the regular, non-`_internal_copy_init` path):
validate, store the sorted deduplicated cycle tuple, detect (2, 29) and
(2, 28), then run `set_first_interval_start` and `set_last_interval_end`.
As in the source, `_dim` stores the length of the *argument* list. -/
def init (cycles_in : List (Int × Int)) (first : Date) (last : Option Date)
    (start_before_first_interval : Bool) : Except String DIC :=
  let cyc := intervals_to_array cycles_in
  let dim : Int := cycles_in.length
  if dim < 1 then
    .error "DateIntervalCycler: len(cycles) must be greater than zero."
  else if cycles_in.any (fun c => c.2 < 1 || c.1 < 1 || c.1 > 12 || month_days_29 c.1 < c.2) then
    .error "DateIntervalCycler: Invalid (month, day) entry"
  else
    let efc := cyc.contains (2, 29)
    let pf29 : Int := if efc then (list_index cyc (2, 29) : Nat) else MAX_INTERVAL
    let has28 := efc && cyc.contains (2, 28)
    let s : DIC :=
      { cycles := cyc, dim := dim, len := 0, y := 0, p := 0, p0 := 0, ind := 0,
        end_of_feb_check := efc, end_of_feb_check_has_28 := has28, p_feb_29 := pf29,
        at_first_interval := 0, at_last_interval := 0,
        started_before_first_interval := start_before_first_interval,
        p0_date := NUL, first_start_date := first, last_end_date := none,
        has_last_end_date := false }
    let s := set_first_interval_start s first start_before_first_interval
    set_last_interval_end s last

/-- Extract the state of a successful construction (junk on failure). -/
def getOk (e : Except String DIC) : DIC :=
  match e with
  | .ok s => s
  | .error _ => default

/-- Source `_index_to_interval_return(p, y, only_start, only_end)` in its
both-dates mode (`only_start = only_end = False`), which is the mode the
round-trip claim is about. -/
def index_to_interval_return (s : DIC) (p yy : Int) : Option (Date × Date) :=
  match to_datetime s p (some yy) true, to_datetime s (p + 1) (some yy) true with
  | some a, some b => some (a, b)
  | _, _ => none

/-- The `while index >= dim: index -= dim; y += 1` loop of
`index_to_interval`; `fuel` bounds the iteration count (the caller passes
one more than the starting index, enough whenever `dim >= 1`). -/
def reduce_year (s : DIC) : Nat → Int → Int → Int × Int
  | 0, index, yy => (index, yy)
  | fuel + 1, index, yy =>
    if index >= s.dim then reduce_year s fuel (index - s.dim) (yy + 1)
    else (index, yy)

/-- The year walk of `_index_to_interval_end_of_feb_check`: starting at
year `yy`, repeatedly subtract the (leap-adjusted) per-year count while the
remaining index reaches it, then resolve within the owning year. -/
def feb_walk (s : DIC) : Nat → Int → Int → Option (Date × Date)
  | 0, _, _ => none
  | fuel + 1, index, yy =>
    let dimy := if is_leap yy then s.dim else s.dim - 1
    if index >= dimy then feb_walk s fuel (index - dimy) (yy + 1)
    else if is_leap yy || index < s.p_feb_29 then index_to_interval_return s index yy
    else index_to_interval_return s (index + 1) yy

/-- Source `_index_to_interval_end_of_feb_check(index, ...)` (both-dates
mode). -/
def index_to_interval_end_of_feb_check (s : DIC) (index : Int) : Option (Date × Date) :=
  let yy := s.first_start_date.y
  let leap_year := is_leap yy
  let p := index + s.p0 - 1
  if leap_year || p < s.p_feb_29 || s.p_feb_29 < s.p0 then
    if p < s.dim then index_to_interval_return s p yy
    else feb_walk s (index - (s.dim - s.p0 + 1)).toNat.succ (index - (s.dim - s.p0 + 1)) (yy + 1)
  else if index + s.p0 < s.dim then index_to_interval_return s (index + s.p0) yy
  else feb_walk s (index - (s.dim - s.p0)).toNat.succ (index - (s.dim - s.p0)) (yy + 1)

/-- The `for p in range(self._dim)` scan of `index_to_interval` at
`index == len - 1`: find the pointer just before `last_end_date` in its
year; `none` propagates an out-of-range `RuntimeError` of `_to_datetime`. -/
def scan_pN (s : DIC) (e : Date) (yy : Int) : Nat → Int → Option Int
  | 0, _ => some (s.dim - 1)
  | fuel + 1, p =>
    match to_datetime s p (some yy) true with
    | none => none
    | some dte => if Date.leb e dte then some (p - 1) else scan_pN s e yy fuel (p + 1)

/-- Source `index_to_interval(index, only_start, only_end)` in its
both-dates mode.  The Python `(None, None)` return for an out-of-range
index and the `AttributeError` on an unbounded series are both `none`. -/
def index_to_interval (s : DIC) (index : Int) : Option (Date × Date) :=
  if index < 0 || index > s.len then none
  else if index == 0 then some (s.first_start_date, s.p0_date)
  else if index == s.len then
    match s.last_end_date with
    | some e => some (e, e)
    | none => none
  else if index == s.len - 1 then
    match s.last_end_date with
    | none => none
    | some e =>
      match scan_pN s e e.y s.dim.toNat 0 with
      | none => none
      | some pN =>
        let py := if pN < 0 then (s.dim - 1, e.y - 1) else (pN, e.y)
        (to_datetime s py.1 (some py.2) true).map (fun d0 => (d0, e))
  else if s.end_of_feb_check_has_28 then index_to_interval_end_of_feb_check s index
  else
    let yy := s.first_start_date.y
    if index + s.p0 - 1 < s.dim then index_to_interval_return s (index + s.p0 - 1) yy
    else
      let iy := reduce_year s (index - (s.dim - s.p0 + 1)).toNat.succ
        (index - (s.dim - s.p0 + 1)) (yy + 1)
      index_to_interval_return s iy.1 iy.2

/-- The boundary scan of `interval_from_date`: first cycle index whose
(inline Feb-29 adjusted) date in year `yN` lies strictly after `date`,
else `len(self.cycles)`. -/
def ifd_scan (s : DIC) (date : Date) (yN : Int) (i : Int) : List (Int × Int) → Int
  | [] => (s.cycles.length : Int)
  | (vm, vd) :: rest =>
    if s.end_of_feb_check && i == s.p_feb_29 && !is_leap yN then
      if s.end_of_feb_check_has_28 then ifd_scan s date yN (i + 1) rest
      else if Date.ltb date ⟨yN, vm, 28⟩ then i
      else ifd_scan s date yN (i + 1) rest
    else if Date.ltb date ⟨yN, vm, vd⟩ then i
    else ifd_scan s date yN (i + 1) rest

/-- Source `interval_from_date(date)` in its both-dates mode.  The Python
`(None, None)` return for an out-of-range date is `none`; on an unbounded
series the source's comparison `date > None` raises `TypeError`, also
`none`.  Note the source uses `len(self.cycles)` (not `_dim`) here and
resolves the start with the backward fix direction. -/
def interval_from_date (s : DIC) (date : Date) : Option (Date × Date) :=
  match s.last_end_date with
  | none => none
  | some e =>
    if Date.ltb date s.first_start_date || Date.ltb e date then none
    else if Date.ltb date s.p0_date then some (s.first_start_date, s.p0_date)
    else
      let dim : Int := s.cycles.length
      let yN := date.y
      let pN := ifd_scan s date yN 0 s.cycles
      match to_datetime s pN (some yN) true with
      | none => none
      | some ie0 =>
        let ie := if Date.ltb e ie0 then e else ie0
        let py :=
          if 0 < pN && pN < dim then (pN - 1, yN)
          else (dim - 1, if pN == dim then yN else yN - 1)
        match to_datetime s py.1 (some py.2) false with
        | none => none
        | some st => some (st, ie)

/-- The `while True: yield self.interval; if self.next(): return` loop of
`iter` (the branch taken when `_started_before_first_interval` is false).
`fuel` bounds the number of produced intervals. -/
def iter_post (s : DIC) : Nat → Option (List (Date × Date))
  | 0 => none
  | fuel + 1 =>
    match interval_start s, interval_end s with
    | some a, some b =>
      match next s false with
      | (s', .ok n) =>
        if n == 0 then (iter_post s' fuel).map (fun l => (a, b) :: l)
        else some [(a, b)]
      | (_, _) => none
    | _, _ => none

/-- The `while not self.next(): yield self.interval` loop of `iter` (the
branch taken when `_started_before_first_interval` is true). -/
def iter_pre (s : DIC) : Nat → Option (List (Date × Date))
  | 0 => none
  | fuel + 1 =>
    match next s false with
    | (s', .ok n) =>
      if n == 0 then
        match interval_start s', interval_end s' with
        | some a, some b => (iter_pre s' fuel).map (fun l => (a, b) :: l)
        | _, _ => none
      else some []
    | (_, _) => none

/-- Source `iter(reset_to_start=False)`, materialised as the full finite
list of produced intervals (`none` on a non-terminating or erroring run,
which `fuel` bounds away for bounded series). -/
def iter_all (s : DIC) (fuel : Nat) : Option (List (Date × Date)) :=
  if s.at_first_interval != 0 && s.at_last_interval != 0 then
    match interval_start s, interval_end s with
    | some a, some b => some [(a, b)]
    | _, _ => none
  else if s.started_before_first_interval then iter_pre s fuel
  else iter_post s fuel

/-- Source `tolist()` with its default arguments (no overrides, not from
the current position, dates kept as dates): copy, reset, iterate. -/
def tolist (s : DIC) (fuel : Nat) : Except String (List (Date × Date)) :=
  if !s.has_last_end_date then
    .error "DateIntervalCycler.tolist must specify an ending date"
  else
    let c := reset s false false
    match iter_all c fuel with
    | some l => .ok l
    | none => .error "iteration failed"

/-- Modelled from the spec: `totuple` is called by the repository's tests
but absent from `src` (only `tolist` is present).  Spec 4.4: for `toTuple`
the materialisation is "a flat sequence of boundary dates: start, then
every subsequent end including the final `lastEnd`".  It is modelled on
top of the embedded `tolist`. -/
def totuple (s : DIC) (fuel : Nat) : Except String (List Date) :=
  (tolist s fuel).map (fun l =>
    match l with
    | [] => []
    | (a, _) :: _ => a :: l.map Prod.snd)

/-- Result of Python `next(cycler)` (the `__next__` method). -/
inductive IterRes where
  | item (ival : Date × Date)
  | stopIteration
  | runtimeError
  | err
deriving DecidableEq, Repr

/-- Source `__next__`: only usable when the object was set up with
`start_before_first_interval=True`; otherwise raises `RuntimeError`
without touching the cursor.  When usable it advances via `next(True)`
(whose `StopIteration` propagates) and returns the interval. -/
def dunder_next (s : DIC) : DIC × IterRes :=
  if s.started_before_first_interval then
    match next s true with
    | (s', .ok _) =>
      match interval_start s', interval_end s' with
      | some a, some b => (s', .item (a, b))
      | _, _ => (s', .err)
    | (s', .stop) => (s', .stopIteration)
    | (s', .err) => (s', .err)
  else (s, .runtimeError)

/-- Structural well-formedness of a cycler state: the bookkeeping facts
established by a successful construction from a duplicate-free cycle list
and maintained by every `next`/`back` call.  These are exactly the bounds
under which the internal `_to_datetime` lookups stay in range. -/
def WF (s : DIC) : Prop :=
  s.dim = (s.cycles.length : Int) ∧ 1 ≤ s.dim ∧
  0 ≤ s.p ∧ s.p ≤ s.dim ∧ (s.at_first_interval = 0 → s.p < s.dim) ∧
  0 ≤ s.p0 ∧ s.p0 ≤ s.dim ∧
  (s.end_of_feb_check_has_28 = true → s.p_feb_29 < s.dim ∧ 2 ≤ s.dim)

/-- States reachable from `s0` by any sequence of `next`/`back` calls
(with either strictness flag). -/
inductive Reach (s0 : DIC) : DIC → Prop
  | refl : Reach s0 s0
  | step_next (b : Bool) {t : DIC} : Reach s0 t → Reach s0 (next t b).1
  | step_back (b : Bool) {t : DIC} : Reach s0 t → Reach s0 (back t b).1

/-! Concrete instances used by the claim theorems and witnesses. -/

/-- The bounded {(2,29)} cycler of the leap-collapse example
(2019-01-01 .. 2021-01-01). -/
def exA : DIC := getOk (init [(2, 29)] ⟨2019, 1, 1⟩ (some ⟨2021, 1, 1⟩) false)

/-- A {(2,28),(2,29)} cycler whose series crosses two non-leap Februaries
(2017-01-01 .. 2018-06-01). -/
def exB : DIC := getOk (init [(2, 28), (2, 29)] ⟨2017, 1, 1⟩ (some ⟨2018, 6, 1⟩) false)

/-- `exB` after two `next()` calls: a state with both boundary flags clear. -/
def exB2 : DIC := (next (next exB false).1 false).1

/-- `exB2` after one further `next()` and then one `back()`. -/
def exB2nb : DIC := (back (next exB2 false).1 false).1

/-- A {(2,28),(2,29),(3,10)} cycler bounded by 2019-01-01 .. 2019-03-20. -/
def exC : DIC :=
  getOk (init [(2, 28), (2, 29), (3, 10)] ⟨2019, 1, 1⟩ (some ⟨2019, 3, 20⟩) false)

/-- `exC` after three `next()` calls. -/
def exC3 : DIC := (next (next (next exC false).1 false).1 false).1

/-- The bounded {(2,29)} cycler over 2019-01-01 .. 2019-03-01. -/
def exD : DIC := getOk (init [(2, 29)] ⟨2019, 1, 1⟩ (some ⟨2019, 3, 1⟩) false)

/-- The cycler constructed with `last_interval_end` equal to
`first_interval_start`. -/
def exE : DIC := getOk (init [(6, 1)] ⟨2000, 1, 1⟩ (some ⟨2000, 1, 1⟩) false)

/-- The degenerate {(2,29)} cycler over 2019-01-01 .. 2019-02-01. -/
def exV : DIC := getOk (init [(2, 29)] ⟨2019, 1, 1⟩ (some ⟨2019, 2, 1⟩) false)

/-- An unbounded single-cycle cycler. -/
def exU : DIC := getOk (init [(6, 1)] ⟨2000, 1, 1⟩ none false)

/-- A bounded single-cycle cycler (2000-01-01 .. 2000-07-01). -/
def exH : DIC := getOk (init [(6, 1)] ⟨2000, 1, 1⟩ (some ⟨2000, 7, 1⟩) false)

/-- `exH` after one `next()` call, which arrives at the last interval. -/
def exW : DIC := (next exH false).1

/-- A bounded cycler constructed with `start_before_first_interval=True`. -/
def exG : DIC := getOk (init [(6, 1)] ⟨2000, 1, 1⟩ (some ⟨2000, 7, 1⟩) true)

/-- `exG` after two `__next__` calls: at the last interval with the
`started_before_first_interval` flag still set. -/
def exG2 : DIC := (dunder_next (dunder_next exG).1).1

/-- The configuration of the repository test `test_str_intervals`. -/
def sv1 : DIC := getOk (init [(1, 15), (6, 20)] ⟨2019, 1, 4⟩ (some ⟨2020, 2, 4⟩) false)

/-- The second configuration of the repository test
`test_leap_year_handling_len2`. -/
def sv2 : DIC := getOk (init [(2, 29)] ⟨2020, 1, 1⟩ (some ⟨2021, 1, 1⟩) false)

/-- The configuration of the class docstring example. -/
def sv3 : DIC := getOk (init [(3, 1), (6, 1), (9, 1), (12, 1)] ⟨2020, 1, 1⟩ none false)

/-- A bounded cycler containing both (2,28) and (2,29) together with
ordinary cycle points, spanning a non-leap and a leap year. -/
def sv4 : DIC :=
  getOk (init [(1, 1), (2, 28), (2, 29), (6, 1)] ⟨2019, 1, 1⟩ (some ⟨2021, 1, 1⟩) false)

/-- The series of `sv4`. -/
def sv4_intervals : List (Date × Date) :=
  [(⟨2019, 1, 1⟩, ⟨2019, 2, 28⟩), (⟨2019, 2, 28⟩, ⟨2019, 6, 1⟩),
   (⟨2019, 6, 1⟩, ⟨2020, 1, 1⟩), (⟨2020, 1, 1⟩, ⟨2020, 2, 28⟩),
   (⟨2020, 2, 28⟩, ⟨2020, 2, 29⟩), (⟨2020, 2, 29⟩, ⟨2020, 6, 1⟩),
   (⟨2020, 6, 1⟩, ⟨2021, 1, 1⟩)]

/-! Claim theorems, preceded by fidelity checks of the embedding against
behaviour the repository's own test suite pins down. -/

/-- Fidelity check: the embedding reproduces the interval sequence that
`test_str_intervals` asserts for cycles [(1,15),(6,20)] over
2019-01-04 .. 2020-02-04. -/
theorem model_check_str_intervals :
    tolist sv1 10 =
      .ok [(⟨2019, 1, 4⟩, ⟨2019, 1, 15⟩), (⟨2019, 1, 15⟩, ⟨2019, 6, 20⟩),
           (⟨2019, 6, 20⟩, ⟨2020, 1, 15⟩), (⟨2020, 1, 15⟩, ⟨2020, 2, 4⟩)] := by
  decide

/-- Fidelity check: the embedding reproduces
`test_leap_year_handling_len2` for the leap start year 2020. -/
theorem model_check_leap_len2 :
    sv2.len = 2 ∧
    tolist sv2 10 =
      .ok [(⟨2020, 1, 1⟩, ⟨2020, 2, 29⟩), (⟨2020, 2, 29⟩, ⟨2021, 1, 1⟩)] ∧
    totuple sv2 10 = .ok [⟨2020, 1, 1⟩, ⟨2020, 2, 29⟩, ⟨2021, 1, 1⟩] := by
  decide

/-- Fidelity check: the embedding reproduces the class docstring example
(`next_get` twice from 2020-01-01 over quarterly cycles). -/
theorem model_check_docstring_example :
    interval_start (next sv3 false).1 = some ⟨2020, 3, 1⟩ ∧
    interval_end (next sv3 false).1 = some ⟨2020, 6, 1⟩ ∧
    interval_start (next (next sv3 false).1 false).1 = some ⟨2020, 6, 1⟩ ∧
    interval_end (next (next sv3 false).1 false).1 = some ⟨2020, 9, 1⟩ := by
  decide

/-- Fidelity check: on a configuration containing both (2,28) and (2,29)
— the shape the repository's index test suites exercise — the embedding
satisfies the full round-trip identity of spec 8: every traversed interval
agrees with `index_to_interval`, `index_from_date` maps its start to its
position and its end to the successor, and `interval_from_date` agrees. -/
theorem model_check_roundtrip_has28 :
    sv4.len = 7 ∧ tolist sv4 20 = .ok sv4_intervals ∧
    sv4_intervals.map (fun ab => (index_from_date sv4 ab.1, index_from_date sv4 ab.2)) =
      (List.range 7).map (fun i => ((i : Int), (i : Int) + 1)) ∧
    (List.range 7).map (fun i => index_to_interval sv4 (i : Int)) = sv4_intervals.map some ∧
    sv4_intervals.map (fun ab => interval_from_date sv4 ab.1) = sv4_intervals.map some := by
  decide

/-- C3: the cycler over the cycle set {(2,29)} bounded by 2019-01-01 and
2021-01-01 materialises (`tolist`) to exactly the three intervals
(2019-01-01, 2019-02-28), (2019-02-28, 2020-02-29), (2020-02-29,
2021-01-01): the (2,29) cycle point resolves to Feb 28 in the non-leap
year 2019 and to Feb 29 in the leap year 2020. -/
theorem claim_C3_leap_collapse :
    init [(2, 29)] ⟨2019, 1, 1⟩ (some ⟨2021, 1, 1⟩) false = .ok exA ∧
    tolist exA 10 =
      .ok [(⟨2019, 1, 1⟩, ⟨2019, 2, 28⟩), (⟨2019, 2, 28⟩, ⟨2020, 2, 29⟩),
           (⟨2020, 2, 29⟩, ⟨2021, 1, 1⟩)] := by
  decide

/-- C1 (evidence of a code bug): in the cycler over {(2,29)} bounded by
2019-01-01 .. 2021-01-01, the full forward traversal produces the interval
at position 1 as (2019-02-28, 2020-02-29) — confirmed by
`index_to_interval 1` — yet `index_from_date 2019-02-28` returns 0.  The
round-trip claim requires 1 there, both as `index_from_date(end)` of
interval 0 and as `index_from_date(start)` of interval 1.  The source
compares the date against the raw (2,29) tuple instead of the Feb-28 date
it resolves to in the non-leap year 2019; its sibling `interval_from_date`
does apply the adjustment and places the same date in interval 1, so the
two lookups disagree. -/
theorem claim_C1_roundtrip_bug :
    tolist exA 10 =
      .ok [(⟨2019, 1, 1⟩, ⟨2019, 2, 28⟩), (⟨2019, 2, 28⟩, ⟨2020, 2, 29⟩),
           (⟨2020, 2, 29⟩, ⟨2021, 1, 1⟩)] ∧
    index_to_interval exA 1 = some (⟨2019, 2, 28⟩, ⟨2020, 2, 29⟩) ∧
    interval_from_date exA ⟨2019, 2, 28⟩ = some (⟨2019, 2, 28⟩, ⟨2020, 2, 29⟩) ∧
    index_from_date exA ⟨2019, 2, 28⟩ = 0 := by
  decide

/-- C2 (evidence of a code bug): `exB2`, reached from a valid bounded
construction by two `next()` calls, has both boundary flags clear and does
not display the last interval (its displayed end is not
`last_interval_end`), so its cursor is at a non-boundary position; yet
`next()` followed by `back()` lands on the same index with a different
interval (the year is off by one).  The source skips the collapsed (2,29)
pointer across a year wrap without re-checking the series end, and
`back()` undoes the skip against the wrong year. -/
theorem claim_C2_next_back_bug :
    exB2.at_first_interval = 0 ∧ exB2.at_last_interval = 0 ∧ exB2.ind = 2 ∧
    interval_start exB2 = some ⟨2018, 2, 28⟩ ∧
    interval_end exB2 = some ⟨2019, 2, 28⟩ ∧
    exB2.last_end_date = some ⟨2018, 6, 1⟩ ∧
    exB2nb.ind = exB2.ind ∧
    interval_start exB2nb = some ⟨2017, 2, 28⟩ := by
  decide

/-- C6 (evidence of a code bug): constructing with `last_interval_end`
equal to `first_interval_start` succeeds (producing a degenerate one
interval series) instead of failing: `_start_less_end_check` only rejects
`last < first`, although its own error text demands that the start be
strictly less than the end. -/
theorem claim_C6_equal_bounds_accepted_bug :
    init [(6, 1)] ⟨2000, 1, 1⟩ (some ⟨2000, 1, 1⟩) false = .ok exE ∧
    exE.len = 1 ∧ exE.at_first_interval = 1 ∧ exE.at_last_interval = 1 ∧
    interval_start exE = some ⟨2000, 1, 1⟩ ∧
    interval_end exE = some ⟨2000, 1, 1⟩ := by
  decide

/-- C8 (evidence of a code bug, on the spec-modelled `totuple`): for the
{(2,29)} cycler bounded by 2019-01-01 .. 2019-03-01, `totuple` flattens
the traversal to the four boundary dates... in fact to the three dates
2019-01-01, 2019-02-28, 2019-03-01, while `size` is 1, so the claimed
identity `length = size + 1` fails (3 vs 2): `index_from_date` undercounts
when `last_interval_end` nudged back one day lands exactly on the
collapsed Feb-28 boundary of a non-leap year. -/
theorem claim_C8_totuple_size_bug :
    totuple exD 10 = .ok [⟨2019, 1, 1⟩, ⟨2019, 2, 28⟩, ⟨2019, 3, 1⟩] ∧
    exD.len = 1 ∧
    tolist exD 10 =
      .ok [(⟨2019, 1, 1⟩, ⟨2019, 2, 28⟩), (⟨2019, 2, 28⟩, ⟨2019, 3, 1⟩)] := by
  decide

/-- C10 (evidence of a code bug): `exC3`, reached from a valid bounded
construction ({(2,28),(2,29),(3,10)}, 2019-01-01 .. 2019-03-20) by three
`next()` calls, displays a reversed current interval: `interval_start` is
2020-02-28 while `interval_end` is 2019-03-20, so start < end fails.  The
collapsed-(2,29) pointer skip advances past the boundary that the series
end check had inspected, so the end snap happens one interval too late. -/
theorem claim_C10_interval_order_bug :
    interval_start exC3 = some ⟨2020, 2, 28⟩ ∧
    interval_end exC3 = some ⟨2019, 3, 20⟩ ∧
    Date.ltb ⟨2019, 3, 20⟩ ⟨2020, 2, 28⟩ = true := by
  decide

/-- C9: Python `next(cycler)` (`__next__`) on a cycler whose
`started_before_first_interval` flag is not set raises `RuntimeError` and
leaves the state untouched; with the flag set and the cursor at (or past)
the last interval it advances via `next(True)` and therefore raises
`StopIteration` (incrementing the overshoot counter, as the source does
before raising). -/
theorem claim_C9_dunder_next :
    (∀ s : DIC, s.started_before_first_interval = false →
      dunder_next s = (s, IterRes.runtimeError)) ∧
    (∀ s : DIC, s.started_before_first_interval = true → 1 ≤ s.at_last_interval →
      dunder_next s =
        ({ s with at_last_interval := s.at_last_interval + 1 }, IterRes.stopIteration)) := by
  constructor
  · intro s hs
    simp [dunder_next, hs]
  · intro s hs hl
    have hne : s.at_last_interval ≠ 0 := by omega
    simp [dunder_next, hs, next, hne]

/-- Helper: `set_first_interval_start` stores its date argument. -/
theorem set_first_first (u : DIC) (dte : Date) (b : Bool) :
    (set_first_interval_start u dte b).first_start_date = dte := by
  unfold set_first_interval_start reset
  dsimp only
  repeat' split
  all_goals rfl

/-- Helper: a successful `init` runs `set_last_interval_end` last, on the
state produced by `set_first_interval_start`. -/
theorem init_ok_shape (cs : List (Int × Int)) (f : Date) (l : Option Date) (b : Bool)
    (s : DIC) (hok : init cs f l b = .ok s) :
    ∃ u : DIC, set_last_interval_end (set_first_interval_start u f b) l = .ok s ∧
      u.first_start_date = f := by
  unfold init at hok
  dsimp only at hok
  split at hok
  · exact absurd hok (by simp)
  split at hok
  · exact absurd hok (by simp)
  exact ⟨_, hok, rfl⟩

/-- C7: a construction without `last_interval_end` reports
`size == MAX_INTERVAL`, whose value is exactly 2,000,000,000. -/
theorem claim_C7_unbounded_sentinel (cs : List (Int × Int)) (f : Date) (b : Bool)
    (s : DIC) (hok : init cs f none b = .ok s) :
    s.len = MAX_INTERVAL ∧ s.len = 2000000000 ∧ s.has_last_end_date = false := by
  obtain ⟨u, hok, -⟩ := init_ok_shape cs f none b s hok
  simp only [set_last_interval_end, start_less_end_violation, Option.isSome_none,
    Bool.false_and, Bool.false_eq_true, if_false, Except.ok.injEq] at hok
  subst hok
  exact ⟨rfl, rfl, rfl⟩

/-- C5: a construction whose `last_interval_end` is at or before the
computed first-year boundary date (`_p0_date`) collapses to exactly one
interval: `size` is 1, `at_first_interval` and `at_last_interval` both
hold, the `start_before_first_interval` flag is dropped, and the current
interval is exactly (`first_interval_start`, `last_interval_end`). -/
theorem claim_C5_degenerate_single_interval (cs : List (Int × Int)) (f e : Date)
    (b : Bool) (s : DIC) (hok : init cs f (some e) b = .ok s)
    (hle : Date.leb e s.p0_date = true) :
    s.len = 1 ∧ s.at_first_interval = 1 ∧ s.at_last_interval = 1 ∧
    s.started_before_first_interval = false ∧
    s.first_start_date = f ∧ s.last_end_date = some e ∧
    interval_start s = some f ∧ interval_end s = some e := by
  obtain ⟨u, hok, -⟩ := init_ok_shape cs f (some e) b s hok
  have hf : (set_first_interval_start u f b).first_start_date = f :=
    set_first_first u f b
  set t := set_first_interval_start u f b with ht
  unfold set_last_interval_end at hok
  dsimp only at hok
  split at hok
  · exact absurd hok (by simp)
  · split at hok
    · rw [Except.ok.injEq] at hok
      subst hok
      exact ⟨rfl, rfl, rfl, rfl, hf, rfl, by simp [interval_start, hf],
        by simp [interval_end]⟩
    · rename_i hcond
      rw [Except.ok.injEq] at hok
      subst hok
      simp only [Option.isSome_some, Bool.true_and] at hcond hle
      exact absurd hle hcond
/-- C9 witness: the hypotheses hold at the concrete states `exU`
(constructed without the flag) and `exG2` (flag set, at the last
interval). -/
theorem claim_C9_dunder_next_witness :
    dunder_next exU = (exU, IterRes.runtimeError) ∧
    dunder_next exG2 =
      ({ exG2 with at_last_interval := exG2.at_last_interval + 1 },
        IterRes.stopIteration) :=
  ⟨claim_C9_dunder_next.1 exU (by decide),
   claim_C9_dunder_next.2 exG2 (by decide) (by decide)⟩

/-- C7 witness: the unbounded single-cycle construction `exU` satisfies
the hypothesis, and its size is the sentinel. -/
theorem claim_C7_unbounded_sentinel_witness :
    init [(6, 1)] ⟨2000, 1, 1⟩ none false = .ok exU ∧ exU.len = 2000000000 :=
  ⟨by decide,
   (claim_C7_unbounded_sentinel [(6, 1)] ⟨2000, 1, 1⟩ false exU (by decide)).2.1⟩

/-- C5 witness: the {(2,29)} cycler bounded by 2019-01-01 .. 2019-02-01
satisfies the hypotheses (its first-year boundary is 2019-02-28), and the
collapse holds there. -/
theorem claim_C5_degenerate_single_interval_witness :
    init [(2, 29)] ⟨2019, 1, 1⟩ (some ⟨2019, 2, 1⟩) false = .ok exV ∧
    Date.leb ⟨2019, 2, 1⟩ exV.p0_date = true ∧
    exV.len = 1 ∧ exV.at_first_interval = 1 ∧ exV.at_last_interval = 1 ∧
    interval_start exV = some ⟨2019, 1, 1⟩ ∧ interval_end exV = some ⟨2019, 2, 1⟩ := by
  have h := claim_C5_degenerate_single_interval [(2, 29)] ⟨2019, 1, 1⟩ ⟨2019, 2, 1⟩ false exV
    (by decide) (by decide)
  exact ⟨by decide, by decide, h.1, h.2.1, h.2.2.1, h.2.2.2.2.2.2.1, h.2.2.2.2.2.2.2⟩

/-- Helper: in-range cycle access yields an element. -/
theorem cyc_some (s : DIC) (h1 : s.dim = (s.cycles.length : Int)) (p : Int)
    (hp : 0 ≤ p) (hpd : p < s.dim) : ∃ c, cyc s p = some c := by
  have hlt : p.toNat < s.cycles.length := by omega
  refine ⟨s.cycles[p.toNat], ?_⟩
  simp only [cyc, if_neg (not_lt.mpr hp)]
  exact List.getElem?_eq_getElem hlt

/-- Helper: one unfolding step of the fuelled `_to_datetime`. -/
theorem tdf_step (s : DIC) (fuel : Nat) (p yy : Int) (fix : Bool) :
    to_datetime_fuel s (fuel + 1) p yy fix =
      if p > s.dim then none
      else if p != s.p_feb_29 || is_leap yy then
        if p < s.dim then (cyc s p).map (fun c => ⟨yy, c.1, c.2⟩)
        else to_datetime_fuel s fuel 0 (yy + 1) fix
      else if !s.end_of_feb_check_has_28 then some ⟨yy, 2, 28⟩
      else if fix then to_datetime_fuel s fuel (p + 1) yy fix
      else to_datetime_fuel s fuel (p - 1) yy fix := rfl

/-- Helper: the Feb-29 guard of `_to_datetime` holds as a boolean. -/
theorem febcond_true {s : DIC} {p yy : Int} (h : p ≠ s.p_feb_29 ∨ is_leap yy = true) :
    (p != s.p_feb_29 || is_leap yy) = true := by
  rcases h with h | h
  · simp [bne_iff_ne, h]
  · simp [h]

/-- Helper: `_to_datetime` succeeds in one step when the pointer directly
resolves to an in-range cycle tuple. -/
theorem tdf_hit (s : DIC) (h1 : s.dim = (s.cycles.length : Int)) (fuel : Nat) (p yy : Int)
    (hp : 0 ≤ p) (hpd : p < s.dim) (hfeb : p ≠ s.p_feb_29 ∨ is_leap yy = true) :
    ∃ d, to_datetime_fuel s (fuel + 1) p yy true = some d := by
  obtain ⟨c, hc⟩ := cyc_some s h1 p hp hpd
  refine ⟨⟨yy, c.1, c.2⟩, ?_⟩
  rw [tdf_step, if_neg (by omega), if_pos (febcond_true hfeb), if_pos hpd, hc]
  rfl

/-- Helper: the in-range pointer arguments on which the source calls
`_to_datetime` (default forward fix) always resolve to a date: fuel 6
covers the worst-case recursion depth. -/
theorem to_datetime_some (s : DIC) (h1 : s.dim = (s.cycles.length : Int))
    (h2 : 1 ≤ s.dim)
    (hA : s.end_of_feb_check_has_28 = true → s.p_feb_29 < s.dim ∧ 2 ≤ s.dim)
    (p yy : Int) (hp : 0 ≤ p) (hpd : p ≤ s.dim) :
    ∃ d, to_datetime_fuel s 6 p yy true = some d := by
  by_cases hfeb : p = s.p_feb_29 ∧ is_leap yy = false
  · obtain ⟨hpe, hl⟩ := hfeb
    have hcond : ¬((p != s.p_feb_29 || is_leap yy) = true) := by simp [hpe, hl]
    by_cases h28 : s.end_of_feb_check_has_28 = true
    · obtain ⟨hf29, hd2⟩ := hA h28
      have hstep : to_datetime_fuel s 6 p yy true = to_datetime_fuel s 5 (p + 1) yy true := by
        rw [show (6 : Nat) = 5 + 1 from rfl, tdf_step, if_neg (by omega), if_neg hcond,
          if_neg (by simp [h28]), if_pos rfl]
      rcases lt_or_eq_of_le (show p + 1 ≤ s.dim by omega) with hlt | heq
      · obtain ⟨d, hd⟩ := tdf_hit s h1 4 (p + 1) yy (by omega) hlt (Or.inl (by omega))
        exact ⟨d, by rw [hstep]; exact hd⟩
      · have hstep2 : to_datetime_fuel s 5 (p + 1) yy true
            = to_datetime_fuel s 4 0 (yy + 1) true := by
          rw [show (5 : Nat) = 4 + 1 from rfl, tdf_step, if_neg (by omega),
            if_pos (febcond_true (Or.inl (by omega))), if_neg (by omega)]
        obtain ⟨d, hd⟩ := tdf_hit s h1 3 0 (yy + 1) le_rfl (by omega)
          (Or.inl (show (0 : Int) ≠ s.p_feb_29 by omega))
        exact ⟨d, by rw [hstep, hstep2]; exact hd⟩
    · refine ⟨⟨yy, 2, 28⟩, ?_⟩
      rw [show (6 : Nat) = 5 + 1 from rfl, tdf_step, if_neg (by omega), if_neg hcond,
        if_pos (by simp [h28])]
  · have hfeb' : p ≠ s.p_feb_29 ∨ is_leap yy = true := by
      by_cases hz : p = s.p_feb_29
      · right
        rcases Bool.eq_false_or_eq_true (is_leap yy) with hfl | hfl
        · exact hfl
        · exact absurd ⟨hz, hfl⟩ hfeb
      · exact Or.inl hz
    rcases lt_or_eq_of_le hpd with hlt | heq
    · exact tdf_hit s h1 5 p yy hp hlt hfeb'
    · have hstep : to_datetime_fuel s 6 p yy true = to_datetime_fuel s 5 0 (yy + 1) true := by
        rw [show (6 : Nat) = 5 + 1 from rfl, tdf_step, if_neg (by omega),
          if_pos (febcond_true hfeb'), if_neg (by omega)]
      by_cases hfeb0 : (0 : Int) = s.p_feb_29 ∧ is_leap (yy + 1) = false
      · obtain ⟨h0e, h0l⟩ := hfeb0
        have hcond0 : ¬(((0 : Int) != s.p_feb_29 || is_leap (yy + 1)) = true) := by
          simp [← h0e, h0l]
        by_cases h28 : s.end_of_feb_check_has_28 = true
        · obtain ⟨hf29, hd2⟩ := hA h28
          have hstep2 : to_datetime_fuel s 5 0 (yy + 1) true
              = to_datetime_fuel s 4 1 (yy + 1) true := by
            rw [show (5 : Nat) = 4 + 1 from rfl, tdf_step, if_neg (by omega), if_neg hcond0,
              if_neg (by simp [h28]), if_pos rfl]
            norm_num
          obtain ⟨d, hd⟩ := tdf_hit s h1 3 1 (yy + 1) (by omega) (by omega)
            (Or.inl (by omega))
          exact ⟨d, by rw [hstep, hstep2]; exact hd⟩
        · refine ⟨⟨yy + 1, 2, 28⟩, ?_⟩
          rw [hstep, show (5 : Nat) = 4 + 1 from rfl, tdf_step, if_neg (by omega),
            if_neg hcond0, if_pos (by simp [h28])]
      · have hfeb0' : (0 : Int) ≠ s.p_feb_29 ∨ is_leap (yy + 1) = true := by
          by_cases hz : (0 : Int) = s.p_feb_29
          · right
            rcases Bool.eq_false_or_eq_true (is_leap (yy + 1)) with hfl | hfl
            · exact hfl
            · exact absurd ⟨hz, hfl⟩ hfeb0
          · exact Or.inl hz
        obtain ⟨d, hd⟩ := tdf_hit s h1 4 0 (yy + 1) le_rfl (by omega) hfeb0'
        exact ⟨d, by rw [hstep]; exact hd⟩

/-- Helper: `_p_back` from an in-range pointer stays in range and keeps
well-formedness (only `p` and `y` change). -/
theorem WF_p_back (s : DIC) (h : WF s) (hp : s.p < s.dim) :
    WF (p_back s) ∧ (p_back s).p < (p_back s).dim := by
  obtain ⟨h1, h2, h3, h4, h5, h6, h7, h8⟩ := h
  unfold p_back
  try dsimp only
  split
  · rename_i hw
    simp only [beq_iff_eq] at hw
    exact ⟨⟨h1, h2, by (try dsimp only); omega, by (try dsimp only); omega, fun _ => by (try dsimp only); omega, h6, h7, h8⟩, by (try dsimp only); omega⟩
  · rename_i hw
    simp only [beq_iff_eq] at hw
    exact ⟨⟨h1, h2, by (try dsimp only); omega, by (try dsimp only); omega, fun _ => by (try dsimp only); omega, h6, h7, h8⟩, by (try dsimp only); omega⟩

/-- Helper: `_p_next` from an in-range pointer stays in range and keeps
well-formedness. -/
theorem WF_p_next (s : DIC) (h : WF s) (hp : s.p < s.dim) :
    WF (p_next s) ∧ (p_next s).p < (p_next s).dim := by
  obtain ⟨h1, h2, h3, h4, h5, h6, h7, h8⟩ := h
  unfold p_next
  try dsimp only
  split
  · rename_i hw
    simp only [beq_iff_eq] at hw
    exact ⟨⟨h1, h2, by (try dsimp only); omega, by (try dsimp only); omega, fun _ => by (try dsimp only); omega, h6, h7, h8⟩, by (try dsimp only); omega⟩
  · rename_i hw
    simp only [beq_iff_eq] at hw
    exact ⟨⟨h1, h2, by (try dsimp only); omega, by (try dsimp only); omega, fun _ => by (try dsimp only); omega, h6, h7, h8⟩, by (try dsimp only); omega⟩

/-- Helper: the Feb-29 skip of `next` keeps the state well-formed. -/
theorem WF_next_feb_skip (s : DIC) (h : WF s) (hp : s.p < s.dim) :
    WF (next_feb_skip s).1 := by
  unfold next_feb_skip
  try dsimp only
  split
  · exact (WF_p_next s h hp).1
  · exact h

/-- Helper: the advance step keeps the state well-formed, clears the
at-first flag, and lands the pointer strictly inside the cycle set. -/
theorem WF_next_enter (s : DIC) (h : WF s) :
    WF (next_enter s) ∧ (next_enter s).at_first_interval = 0 ∧
    (next_enter s).p < (next_enter s).dim := by
  obtain ⟨h1, h2, h3, h4, h5, h6, h7, h8⟩ := h
  unfold next_enter p_next
  try dsimp only
  by_cases hf : (s.at_first_interval != 0) = true
  · rw [if_pos hf]
    try dsimp only
    split
    · rename_i hw
      simp only [beq_iff_eq] at hw
      exact ⟨⟨h1, h2, by (try dsimp only); omega, by (try dsimp only); omega, fun _ => by (try dsimp only); omega, h6, h7, h8⟩, rfl, by (try dsimp only); omega⟩
    · rename_i hw
      simp only [beq_iff_eq] at hw
      exact ⟨⟨h1, h2, by (try dsimp only); omega, by (try dsimp only); omega, fun _ => by (try dsimp only); omega, h6, h7, h8⟩, rfl, by (try dsimp only); omega⟩
  · rw [if_neg hf]
    have hf0 : s.at_first_interval = 0 := by
      simpa [bne_iff_ne] using hf
    have hpd := h5 hf0
    try dsimp only
    split
    · rename_i hw
      simp only [beq_iff_eq] at hw
      exact ⟨⟨h1, h2, by (try dsimp only); omega, by (try dsimp only); omega, fun _ => by (try dsimp only); omega, h6, h7, h8⟩, hf0, by (try dsimp only); omega⟩
    · rename_i hw
      simp only [beq_iff_eq] at hw
      exact ⟨⟨h1, h2, by (try dsimp only); omega, by (try dsimp only); omega, fun _ => by (try dsimp only); omega, h6, h7, h8⟩, hf0, by (try dsimp only); omega⟩

/-- Helper: the tail of `next` keeps the state well-formed whenever the
advanced state is well-formed with its pointer strictly in range. -/
theorem WF_next_main (s : DIC) (h : WF s) (hp : s.p < s.dim) : WF (next_main s).1 := by
  have hskip := WF_next_feb_skip s h hp
  obtain ⟨h1, h2, h3, h4, h5, h6, h7, h8⟩ := h
  unfold next_main
  try dsimp only
  split
  · split
    · split
      · exact ⟨h1, h2, h3, h4, h5, h6, h7, h8⟩
      · split
        · split
          · exact (WF_p_back s ⟨h1, h2, h3, h4, h5, h6, h7, h8⟩ hp).1
          · exact ⟨h1, h2, h3, h4, h5, h6, h7, h8⟩
        · exact hskip
    · exact hskip
  · exact hskip

/-- Helper: `next` preserves structural well-formedness. -/
theorem WF_next (s : DIC) (h : WF s) (b : Bool) : WF (next s b).1 := by
  obtain ⟨he, hf, hpd⟩ := WF_next_enter s h
  obtain ⟨h1, h2, h3, h4, h5, h6, h7, h8⟩ := h
  unfold next
  try dsimp only
  split
  · split <;> exact ⟨h1, h2, h3, h4, h5, h6, h7, h8⟩
  split
  · exact ⟨h1, h2, h3, h4, by simp, h6, h7, h8⟩
  · exact WF_next_main _ he hpd

/-- Helper: the Feb-29 skip of `back` keeps the state well-formed. -/
theorem WF_back_feb_skip (s : DIC) (h : WF s) (hp : s.p < s.dim) :
    WF (back_feb_skip s).1 := by
  unfold back_feb_skip
  try dsimp only
  split
  · exact (WF_p_back s h hp).1
  · exact h

/-- Helper: the retreat step keeps the state well-formed with the pointer
strictly in range, provided the at-first flag was clear. -/
theorem WF_back_enter (s : DIC) (h : WF s) (hf : s.at_first_interval = 0) :
    WF (back_enter s) ∧ (back_enter s).p < (back_enter s).dim := by
  obtain ⟨h1, h2, h3, h4, h5, h6, h7, h8⟩ := h
  have hpd := h5 hf
  unfold back_enter p_back
  try dsimp only
  by_cases hl : (s.at_last_interval != 0) = true
  · rw [if_pos hl]
    try dsimp only
    split
    all_goals rename_i hw
    all_goals simp only [beq_iff_eq] at hw
    all_goals
      exact ⟨⟨h1, h2, by (try dsimp only); omega, by (try dsimp only); omega,
        fun _ => by (try dsimp only); omega, h6, h7, h8⟩, by (try dsimp only); omega⟩
  · rw [if_neg hl]
    try dsimp only
    split
    all_goals rename_i hw
    all_goals simp only [beq_iff_eq] at hw
    all_goals
      exact ⟨⟨h1, h2, by (try dsimp only); omega, by (try dsimp only); omega,
        fun _ => by (try dsimp only); omega, h6, h7, h8⟩, by (try dsimp only); omega⟩

/-- Helper: `reset` with `set_p0 = false` unfolded (the branch taken by
the internal call in `back`). -/
theorem reset_no_p0 (s : DIC) (b : Bool) :
    reset s b false =
      (let s2 : DIC := { s with y := s.first_start_date.y, p := s.p0, ind := 0 }
       if !(s2.at_first_interval != 0 && s2.at_last_interval != 0) then
         { s2 with started_before_first_interval := b,
                   at_first_interval := if b then -1 else 1, at_last_interval := 0 }
       else s2) := rfl

/-- Helper: `reset` without the p0 recomputation keeps the state
well-formed. -/
theorem WF_reset (s : DIC) (h : WF s) (b : Bool) : WF (reset s b false) := by
  obtain ⟨h1, h2, h3, h4, h5, h6, h7, h8⟩ := h
  rw [reset_no_p0]
  try dsimp only
  split
  · refine ⟨h1, h2, h6, h7, ?_, h6, h7, h8⟩
    intro hz
    dsimp only at hz
    split at hz <;> omega
  · rename_i hc
    refine ⟨h1, h2, h6, h7, ?_, h6, h7, h8⟩
    intro hz
    dsimp only at hz hc
    simp only [bne_iff_ne, Bool.not_and, Bool.not_eq_true] at hc
    simp_all

/-- Helper: the tail of `back` keeps the state well-formed. -/
theorem WF_back_main (s : DIC) (h : WF s) (hp : s.p < s.dim) : WF (back_main s).1 := by
  have hskip := WF_back_feb_skip s h hp
  unfold back_main
  try dsimp only
  split
  · split
    · exact h
    · split
      · exact WF_reset s h false
      · exact hskip
  · exact hskip

/-- Helper: `back` preserves structural well-formedness. -/
theorem WF_back (s : DIC) (h : WF s) (b : Bool) : WF (back s b).1 := by
  obtain ⟨h1, h2, h3, h4, h5, h6, h7, h8⟩ := h
  unfold back
  try dsimp only
  split
  · rename_i hne
    have hne' : s.at_first_interval ≠ 0 := by simpa [bne_iff_ne] using hne
    split <;>
      refine ⟨h1, h2, h3, h4, ?_, h6, h7, h8⟩ <;>
      · intro hz
        dsimp only at hz
        split at hz
        · omega
        · rename_i hq
          simp only [beq_iff_eq] at hq
          omega
  · rename_i hfe
    have hf : s.at_first_interval = 0 := by
      simpa [bne_iff_ne] using hfe
    obtain ⟨he, hpd⟩ := WF_back_enter s ⟨h1, h2, h3, h4, h5, h6, h7, h8⟩ hf
    exact WF_back_main _ he hpd

/-- Helper: every reachable state of a well-formed cycler is well-formed. -/
theorem reach_WF {s0 t : DIC} (h0 : WF s0) (hr : Reach s0 t) : WF t := by
  induction hr with
  | refl => exact h0
  | step_next b _ ih => exact WF_next _ ih b
  | step_back b _ ih => exact WF_back _ ih b

/-- Helper: in a well-formed advanced state the tail of `next` returns an
overshoot count and never raises. -/
theorem next_main_ok (s : DIC) (h : WF s) (hp : s.p < s.dim) :
    ∃ n : Int, (next_main s).2 = NextRes.ok n := by
  obtain ⟨h1, h2, h3, h4, h5, h6, h7, h8⟩ := h
  obtain ⟨d, hd⟩ := to_datetime_some s h1 h2 h8 (s.p + 1) s.y (by omega) (by omega)
  unfold next_main next_feb_skip
  dsimp only
  repeat' split
  all_goals first
  | exact ⟨_, rfl⟩
  | (rename_i hnone
     simp only [to_datetime, Option.getD_none] at hnone
     rw [hnone] at hd
     exact absurd hd (by simp))

/-- Helper: in a well-formed state, non-strict `next` returns an overshoot
count and never raises. -/
theorem next_false_ok (s : DIC) (h : WF s) : ∃ n : Int, (next s false).2 = NextRes.ok n := by
  obtain ⟨he, hf, hpd⟩ := WF_next_enter s h
  unfold next
  dsimp only
  split
  · exact ⟨_, rfl⟩
  split
  · exact ⟨_, rfl⟩
  · exact next_main_ok _ he hpd

/-- Helper: the first occurrence index of a member is within the list. -/
theorem list_index_lt {l : List (Int × Int)} {c : Int × Int} (h : c ∈ l) :
    list_index l c < l.length := by
  induction l with
  | nil => cases h
  | cons x t ih =>
    by_cases hx : x = c
    · simp [list_index, hx]
    · rcases List.mem_cons.mp h with h' | h'
      · exact absurd h'.symm hx
      · simpa [list_index, hx] using ih h'

/-- Helper: a list containing two distinct members has length at least 2. -/
theorem two_mem_length {l : List (Int × Int)} {a b : Int × Int}
    (ha : a ∈ l) (hb : b ∈ l) (hne : a ≠ b) : 2 ≤ l.length := by
  cases l with
  | nil => cases ha
  | cons x t =>
    cases t with
    | nil =>
      simp at ha hb
      exact absurd (ha.trans hb.symm) hne
    | cons y u =>
      simp only [List.length_cons]
      omega

/-- Helper: the boundary search of `reset(set_p0=True)` stays below the
running index plus the remaining list length, or returns the stored cycle
count. -/
theorem reset_p0_go_bound (s : DIC) (l : List (Int × Int)) :
    ∀ i : Int, 0 ≤ i →
      reset_p0_go s i l = (s.cycles.length : Int) ∨
      (i ≤ reset_p0_go s i l ∧ reset_p0_go s i l < i + l.length) := by
  induction l with
  | nil => intro i _; exact Or.inl rfl
  | cons x t ih =>
    intro i hi
    obtain ⟨vm, vd⟩ := x
    simp only [reset_p0_go]
    split
    · split
      · rcases ih (i + 1) (by omega) with h | ⟨ha, hb⟩
        · exact Or.inl h
        · refine Or.inr ⟨by omega, ?_⟩
          simp only [List.length_cons]
          push_cast
          omega
      · split
        · exact Or.inr ⟨le_rfl, by simp only [List.length_cons]; push_cast; omega⟩
        · rcases ih (i + 1) (by omega) with h | ⟨ha, hb⟩
          · exact Or.inl h
          · refine Or.inr ⟨by omega, ?_⟩
            simp only [List.length_cons]
            push_cast
            omega
    · split
      · exact Or.inr ⟨le_rfl, by simp only [List.length_cons]; push_cast; omega⟩
      · rcases ih (i + 1) (by omega) with h | ⟨ha, hb⟩
        · exact Or.inl h
        · refine Or.inr ⟨by omega, ?_⟩
          simp only [List.length_cons]
          push_cast
          omega

/-- Helper: `set_first_interval_start` establishes well-formedness from
the static construction facts alone. -/
theorem WF_set_first (u : DIC) (f : Date) (b : Bool)
    (h1 : u.dim = (u.cycles.length : Int)) (h2 : 1 ≤ u.dim)
    (h8 : u.end_of_feb_check_has_28 = true → u.p_feb_29 < u.dim ∧ 2 ≤ u.dim) :
    WF (set_first_interval_start u f b) := by
  have hb := reset_p0_go_bound
    ({ u with first_start_date := f, at_first_interval := 1, y := f.y }) u.cycles 0 le_rfl
  dsimp only at hb
  unfold set_first_interval_start reset
  try dsimp only
  repeat' split
  all_goals
    refine ⟨h1, h2, ?_, ?_, ?_, ?_, ?_, h8⟩ <;> (try dsimp only) <;>
      first
      | omega
      | simp_all

/-- Helper: `set_last_interval_end` preserves well-formedness. -/
theorem WF_set_last (u : DIC) (l : Option Date) (s : DIC) (h : WF u)
    (hok : set_last_interval_end u l = .ok s) : WF s := by
  obtain ⟨h1, h2, h3, h4, h5, h6, h7, h8⟩ := h
  unfold set_last_interval_end at hok
  try dsimp only at hok
  split at hok
  · exact absurd hok (by simp)
  · split at hok
    · rw [Except.ok.injEq] at hok
      subst hok
      exact ⟨h1, h2, h3, h4, fun hz => absurd hz (by simp), h6, h7, h8⟩
    · split at hok
      · rw [Except.ok.injEq] at hok
        subst hok
        exact ⟨h1, h2, h3, h4, h5, h6, h7, h8⟩
      · rw [Except.ok.injEq] at hok
        subst hok
        exact ⟨h1, h2, h3, h4, h5, h6, h7, h8⟩

/-- Helper: a successful construction from a duplicate-free cycle list
yields a well-formed state. -/
theorem WF_init (cs : List (Int × Int)) (f : Date) (l : Option Date) (b : Bool) (s : DIC)
    (hnd : ((intervals_to_array cs).length : Int) = (cs.length : Int))
    (hok : init cs f l b = .ok s) : WF s := by
  unfold init at hok
  try dsimp only at hok
  split at hok
  · exact absurd hok (by simp)
  rename_i hd
  split at hok
  · exact absurd hok (by simp)
  refine WF_set_last _ l s ?_ hok
  refine WF_set_first _ f b ?_ ?_ ?_
  · exact hnd.symm
  · dsimp only
    omega
  · intro h28
    dsimp only at h28 ⊢
    simp only [Bool.and_eq_true] at h28
    obtain ⟨hefc, hc28⟩ := h28
    have hm29 : ((2 : Int), (29 : Int)) ∈ intervals_to_array cs := by simpa using hefc
    have hm28 : ((2 : Int), (28 : Int)) ∈ intervals_to_array cs := by simpa using hc28
    have hx := list_index_lt hm29
    have hy := two_mem_length hm29 hm28 (by decide)
    constructor
    · simp only [hefc, if_true]
      omega
    · omega

/-- C4: while the cursor of a bounded cycler is at the last interval,
non-strict `next()` leaves the index and the displayed interval unchanged
and returns the running overshoot count (the counter reads N on the Nth
consecutive call: the arrival snap set it to 1 and each call increments
it, returning the pre-increment value); with `allowStopIteration=True` the
same condition raises `StopIteration` instead (after the increment, as the
source does).  Moreover, on any cycler validly constructed from a
duplicate-free cycle list, non-strict `next` never raises at any reachable
state. -/
theorem claim_C4_overshoot_protocol :
    (∀ s : DIC, s.has_last_end_date = true → 1 ≤ s.at_last_interval →
      next s false = ({ s with at_last_interval := s.at_last_interval + 1 },
        NextRes.ok s.at_last_interval) ∧
      next s true = ({ s with at_last_interval := s.at_last_interval + 1 }, NextRes.stop) ∧
      (next s false).1.ind = s.ind ∧
      interval_start (next s false).1 = interval_start s ∧
      interval_end (next s false).1 = interval_end s) ∧
    (∀ (cs : List (Int × Int)) (f : Date) (l : Option Date) (b : Bool) (s0 t : DIC),
      ((intervals_to_array cs).length : Int) = (cs.length : Int) →
      init cs f l b = .ok s0 → Reach s0 t →
      ∃ n : Int, (next t false).2 = NextRes.ok n) := by
  constructor
  · intro s _ hl
    have hne : (s.at_last_interval != 0) = true := by
      simp only [bne_iff_ne, ne_eq]
      omega
    have hfalse : next s false =
        ({ s with at_last_interval := s.at_last_interval + 1 },
          NextRes.ok s.at_last_interval) := by
      unfold next
      rw [if_pos hne, if_neg (show ¬(false = true) by simp)]
      dsimp only
      rw [Prod.mk.injEq, NextRes.ok.injEq]
      exact ⟨rfl, by omega⟩
    have htrue : next s true =
        ({ s with at_last_interval := s.at_last_interval + 1 }, NextRes.stop) := by
      unfold next
      rw [if_pos hne]
      rfl
    refine ⟨hfalse, htrue, by rw [hfalse], by rw [hfalse]; rfl, ?_⟩
    rw [hfalse]
    have hne' : (({ s with at_last_interval := s.at_last_interval + 1 } :
        DIC).at_last_interval != 0) = true := by
      simp only [bne_iff_ne, ne_eq]
      omega
    unfold interval_end
    rw [if_pos hne, if_pos hne']
  · intro cs f l b s0 t hnd hok hr
    exact next_false_ok t (reach_WF (WF_init cs f l b s0 hnd hok) hr)

/-- C4 witness: the concrete bounded cycler `exH` arrives at its last
interval after one `next()` (state `exW`); the theorem's clauses are
discharged there, and the never-raises clause at the freshly constructed
`exH` itself. -/
theorem claim_C4_overshoot_protocol_witness :
    exW.has_last_end_date = true ∧ (1 : Int) ≤ exW.at_last_interval ∧
    next exW false = ({ exW with at_last_interval := exW.at_last_interval + 1 },
      NextRes.ok exW.at_last_interval) ∧
    (∃ n : Int, (next exH false).2 = NextRes.ok n) :=
  ⟨by decide, by decide,
   (claim_C4_overshoot_protocol.1 exW (by decide) (by decide)).1,
   claim_C4_overshoot_protocol.2 [(6, 1)] ⟨2000, 1, 1⟩ (some ⟨2000, 7, 1⟩) false exH exH
     (by decide) (by decide) Reach.refl⟩

end DICModel
